import Mathlib

/-! Shallow embedding of src/index.tsx, the single-file React application
that joins uploaded video clips into one recorded output video.  React
state setters become functional record updates on an explicit state type;
browser effects are made explicit: object URLs are allocation indices
handed out by a store, window.alert and the AI request become result
flags, and the media pipeline calls made by the render routine are
recorded in an event trace.  Wall-clock readings (performance.now, the
per-frame video position, Date.now) and the outcomes of fallible browser
calls are supplied by an environment, so every handler is a pure
function of state and environment. -/

namespace VideoJoiner

/-- One uploaded video entry (interface VideoFile in the source).  An
object URL is modelled as the allocation index handed out by the URL
store when URL.createObjectURL ran. -/
structure VideoFile where
  id : String
  fileName : String
  fileSize : Nat
  objectUrl : Nat
deriving DecidableEq

/-- The export format selector (state outputFormat, values webm / mp4). -/
inductive OutputFormat
  | webm
  | mp4
deriving DecidableEq

/-- The React state of the App component: one field per useState hook. -/
structure AppState where
  videos : List VideoFile
  audioFile : Option String
  isRendering : Bool
  progress : ℚ
  status : String
  outputUrl : Option Nat
  musicPrompt : String
  musicDescription : String
  isGeneratingMusic : Bool
  masterDuration : ℚ
  masterLoop : Bool
  outputFormat : OutputFormat
deriving DecidableEq

/-- The browser URL registry: the next fresh object-URL index, and the
list of URLs revoked so far (in revocation order). -/
structure UrlStore where
  nextUrl : Nat
  revoked : List Nat
deriving DecidableEq

/-- URL.createObjectURL: hand out the next fresh index. -/
def createObjectURL (u : UrlStore) : Nat × UrlStore :=
  (u.nextUrl, { u with nextUrl := u.nextUrl + 1 })

/-- URL.revokeObjectURL: record the revocation. -/
def revokeObjectURL (url : Nat) (u : UrlStore) : UrlStore :=
  { u with revoked := u.revoked ++ [url] }

/-- totalDuration = videos.length * masterDuration (source line 37). -/
def totalDuration (s : AppState) : ℚ :=
  (s.videos.length : ℚ) * s.masterDuration

/-- A file picked in the file-input dialog (its name and size). -/
structure SelectedFile where
  name : String
  size : Nat
deriving DecidableEq

/-- The id computed for an uploaded file: the template literal
file.name - Date.now() of source line 62.  The Nat argument is the
Date.now() reading observed during that iteration of the map. -/
def mkVideoId (name : String) (now : Nat) : String :=
  name ++ "-" ++ toString now

/-- files.map of source lines 61 to 65: build one VideoFile per selected
file, allocating one object URL each, left to right.  Each selected file
is paired with the Date.now() value read while mapping it. -/
def allocVideos : List (SelectedFile × Nat) → UrlStore → List VideoFile × UrlStore
  | [], u => ([], u)
  | (f, t) :: rest, u =>
    let r1 := createObjectURL u
    let r2 := allocVideos rest r1.2
    ({ id := mkVideoId f.name t, fileName := f.name, fileSize := f.size,
       objectUrl := r1.1 } :: r2.1, r2.2)

/-- handleVideoUpload (source lines 56 to 69): an empty selection
returns before touching any state; otherwise the new entries are
appended after the existing ones and the status message is set. -/
def handleVideoUpload (files : List (SelectedFile × Nat)) (s : AppState)
    (u : UrlStore) : AppState × UrlStore :=
  if files.isEmpty then (s, u)
  else
    let r := allocVideos files u
    ({ s with videos := s.videos ++ r.1,
              status := toString files.length ++
                " video(s) added. Adjust master settings and render." }, r.2)

/-- handleRemoveVideo (source lines 104 to 113): revoke the object URL
of the first entry whose id matches (find), drop every entry whose id
matches (filter), and set the status message. -/
def handleRemoveVideo (idToRemove : String) (s : AppState) (u : UrlStore) :
    AppState × UrlStore :=
  let u1 := match s.videos.find? (fun v => v.id == idToRemove) with
    | some v => revokeObjectURL v.objectUrl u
    | none => u
  ({ s with videos := s.videos.filter (fun v => v.id != idToRemove),
            status := "Video removed." }, u1)

/-- Result of one handleGenerateMusic run: the state afterwards, whether
window.alert fired, and whether the AI request was issued. -/
structure MusicResult where
  state : AppState
  alerted : Bool
  requested : Bool
deriving DecidableEq

/-- The fixed failure message of the handleGenerateMusic catch branch. -/
def musicFailureMessage : String :=
  "Failed to generate music description. Please try again."

/-- The JavaScript String.prototype.trim: strip whitespace characters
from both ends of the string. -/
def jsTrim (s : String) : String :=
  ⟨((s.data.dropWhile Char.isWhitespace).reverse.dropWhile
      Char.isWhitespace).reverse⟩

/-- handleGenerateMusic (source lines 79 to 102).  The guard rejects a
blank (whitespace-only) prompt or a nonpositive total duration with an
alert and no state change.  Otherwise the AI call is issued; its outcome
is the environment argument: ok text sets the description to the
response text, an error sets the fixed failure message, and the finally
clause clears isGeneratingMusic in both cases. -/
def handleGenerateMusic (aiResult : Except String String) (s : AppState) :
    MusicResult :=
  if jsTrim s.musicPrompt = "" ∨ totalDuration s ≤ 0 then
    ⟨s, true, false⟩
  else
    let s1 := { s with isGeneratingMusic := true, musicDescription := "" }
    match aiResult with
    | .ok text =>
      ⟨{ s1 with musicDescription := text, isGeneratingMusic := false },
        false, true⟩
    | .error _ =>
      ⟨{ s1 with musicDescription := musicFailureMessage,
                 isGeneratingMusic := false }, false, true⟩

/-- The Render button of the JSX (source line 403): it is disabled while
isRendering or while the videos list is empty. -/
def renderButtonDisabled (s : AppState) : Bool :=
  s.isRendering || (s.videos.length == 0)

/-- One animation frame observed by the render loop: the
performance.now() reading and the current playback position and total
duration of the off-screen video element at that instant. -/
structure Frame where
  now : ℚ
  currentTime : ℚ
  duration : ℚ
deriving DecidableEq

/-- Environment for one clip of the render loop: whether
tempVideo.play() rejected (some message) or resolved (none), the
performance.now() reading taken just before the while loop, and the
frames delivered by requestAnimationFrame. -/
structure ClipEnv where
  playError : Option String
  startTime : ℚ
  frames : List Frame
deriving DecidableEq

/-- Environment for one handleRenderVideo run: outcome of every
fallible browser call it makes.  metadata is some (width, height) when
onloadedmetadata fires for the first video and none when onerror fires;
audioDecodeError is the rejection of decodeAudioData, when any. -/
structure RenderEnv where
  mimeSupported : Bool
  metadata : Option (Nat × Nat)
  ctxOk : Bool
  audioDecodeError : Option String
  clips : List ClipEnv
deriving DecidableEq

/-- The media pipeline calls the render routine makes, in order. -/
inductive RenderEvent
  | createCanvas
  | createVideoEl
  | loadMeta (url : Nat)
  | setCanvasSize (w h : Nat)
  | captureStream (fps : Nat)
  | createAudioContext
  | connectAudioBuffer
  | silentOscillator (gain : ℚ)
  | combineStream (videoTracks audioTracks : Nat)
  | createRecorder (mime : String) (videoBitsPerSecond : Option Nat)
  | recorderStart
  | setClipSrc (url : Nat)
  | playClip (url : Nat)
  | resetClipTime (url : Nat)
  | drawFrame (url : Nat)
  | recorderStop
  | pauseVideo
  | closeAudioContext
  | makeBlobUrl (url : Nat)
deriving DecidableEq

/-- How one handleRenderVideo run ended. -/
inductive RenderOutcome
  | noVideosAlert
  | unsupportedMime
  | success
  | failed (msg : String)
deriving DecidableEq

/-- Result of the per-clip while loop (source lines 225 to 241):
elapsed and overallProgress afterwards, the events it performed, and
every value it passed to setProgress, in order. -/
structure FrameLoopOut where
  elapsed : ℚ
  overall : ℚ
  events : List RenderEvent
  progressVals : List ℚ
deriving DecidableEq

/-- Result of the for loop over the clips (source lines 216 to 242):
events, setProgress values, final overallProgress, the elapsed value
each completed clip loop ended with, and the rejection message when a
play() call threw (aborting the loop). -/
structure ClipLoopOut where
  events : List RenderEvent
  progressVals : List ℚ
  overall : ℚ
  perClipElapsed : List ℚ
  err : Option String
deriving DecidableEq

/-- Result of one handleRenderVideo run: outcome, state and URL store
afterwards, the media-call trace, every setProgress value in order, and
the per-clip elapsed times. -/
structure RenderResult where
  outcome : RenderOutcome
  state : AppState
  urls : UrlStore
  trace : List RenderEvent
  progressLog : List ℚ
  clipElapsed : List ℚ
deriving DecidableEq

/-- mimeType of source line 135. -/
def mimeTypeOf : OutputFormat → String
  | .mp4 => "video/mp4"
  | .webm => "video/webm"

/-- The recorder options of source lines 142 to 145: 25 Mbps for mp4,
nothing for webm. -/
def bitrateOf : OutputFormat → Option Nat
  | .mp4 => some 25000000
  | .webm => none

/-- Object URL of videos[0] (the metadata probe target, source 165). -/
def firstObjectUrl (s : AppState) : Nat :=
  match s.videos with
  | [] => 0
  | v :: _ => v.objectUrl

/-- The audio branch of source lines 178 to 192: with an uploaded audio
file, decode it and connect the buffer source (decodeAudioData may
reject); without one, connect an oscillator through a zero-gain node. -/
def audioSetup (audioFile : Option String) (decodeError : Option String) :
    Except String (List RenderEvent) :=
  match audioFile with
  | some _ =>
    match decodeError with
    | none => .ok [.connectAudioBuffer]
    | some e => .error e
  | none => .ok [.silentOscillator 0]

/-- The while loop of source lines 225 to 241, one clip.  Arguments
after the frame list: lastFrameTime, elapsed, overallProgress.  Each
iteration reads performance.now(), accumulates the delta, resets the
clip position when masterLoop is set and the clip is within 0.1 s of
its end, draws the frame, and stores min(100, overallProgress over
totalDuration ms times 100) as the progress.  none means the supplied
frame list ran out before elapsed reached clipDur, leaving the loop
undetermined. -/
def frameLoop (ml : Bool) (clipDur totalMs : ℚ) (url : Nat) :
    List Frame → ℚ → ℚ → ℚ → Option FrameLoopOut
  | [], _, elapsed, op =>
    if elapsed < clipDur then none else some ⟨elapsed, op, [], []⟩
  | f :: rest, lastT, elapsed, op =>
    if elapsed < clipDur then
      let delta := f.now - lastT
      let elapsed1 := elapsed + delta
      let op1 := op + delta
      let p := min 100 (op1 / totalMs * 100)
      let evs := (if ml ∧ f.duration - 1 / 10 ≤ f.currentTime then
          [RenderEvent.resetClipTime url] else []) ++ [RenderEvent.drawFrame url]
      match frameLoop ml clipDur totalMs url rest f.now elapsed1 op1 with
      | none => none
      | some out =>
        some ⟨out.elapsed, out.overall, evs ++ out.events, p :: out.progressVals⟩
    else some ⟨elapsed, op, [], []⟩

/-- The for loop of source lines 216 to 242 over videos paired with
their clip environments, carrying overallProgress.  Each clip sets the
element source, awaits play() (whose rejection aborts the loop and
propagates to the catch), then runs the frame loop. -/
def clipsLoop (ml : Bool) (clipDur totalMs : ℚ) :
    List (VideoFile × ClipEnv) → ℚ → Option ClipLoopOut
  | [], op => some ⟨[], [], op, [], none⟩
  | (v, c) :: rest, op =>
    match c.playError with
    | some msg =>
      some ⟨[RenderEvent.setClipSrc v.objectUrl, RenderEvent.playClip v.objectUrl],
        [], op, [], some msg⟩
    | none =>
      match frameLoop ml clipDur totalMs v.objectUrl c.frames c.startTime 0 op with
      | none => none
      | some fo =>
        match clipsLoop ml clipDur totalMs rest fo.overall with
        | none => none
        | some out =>
          some ⟨[RenderEvent.setClipSrc v.objectUrl, RenderEvent.playClip v.objectUrl]
              ++ fo.events ++ out.events,
            fo.progressVals ++ out.progressVals, out.overall,
            fo.elapsed :: out.perClipElapsed, out.err⟩

/-- The catch handler of source lines 248 to 252: prefix the status with
the error banner and clear isRendering. -/
def catchFinal (s : AppState) (msg : String) : AppState :=
  { s with status := "Error during render: " ++ msg, isRendering := false }

/-- The state resets at the top of handleRenderVideo (source lines 129
to 132): isRendering true, progress 0, the initial status, outputUrl
null. -/
def initState (s : AppState) : AppState :=
  { s with isRendering := true, progress := 0,
           status := "Initializing render...", outputUrl := none }

/-- Media calls of a run that reaches recorder.start(), in order:
canvas and video element creation, the metadata probe on the first
video, canvas sizing, the 30 FPS canvas capture, audio context
creation, the audio source hookup, the combined stream of the canvas
video track and the destination audio track, recorder creation with
the chosen options, recorder start. -/
def renderTracePrefix (s : AppState) (w h : Nat) (aevs : List RenderEvent) :
    List RenderEvent :=
  [.createCanvas, .createVideoEl, .loadMeta (firstObjectUrl s),
   .setCanvasSize w h, .captureStream 30, .createAudioContext]
  ++ aevs
  ++ [.combineStream 1 1,
      .createRecorder (mimeTypeOf s.outputFormat) (bitrateOf s.outputFormat),
      .recorderStart]

/-- Result of the empty-videos alert return (source lines 123 to 127):
nothing is touched. -/
def resAlert (s : AppState) (u : UrlStore) : RenderResult :=
  ⟨.noVideosAlert, s, u, [], [], []⟩

/-- Result of the isTypeSupported early return (source lines 137 to
141). -/
def resUnsupported (s : AppState) (u : UrlStore) : RenderResult :=
  ⟨.unsupportedMime,
   { initState s with
       status := "Error: Your browser does not support " ++
         mimeTypeOf s.outputFormat ++
         " recording. Please choose another format.",
       isRendering := false },
   u, [], [0], []⟩

/-- Result when the metadata probe rejects (source line 164). -/
def resMetaFail (s : AppState) (u : UrlStore) : RenderResult :=
  ⟨.failed "Failed to load video metadata.",
   catchFinal (initState s) "Failed to load video metadata.", u,
   [.createCanvas, .createVideoEl, .loadMeta (firstObjectUrl s)], [0], []⟩

/-- Result when getContext returns null (source line 169). -/
def resCtxFail (s : AppState) (u : UrlStore) (w h : Nat) : RenderResult :=
  ⟨.failed "Could not get canvas context",
   catchFinal (initState s) "Could not get canvas context", u,
   [.createCanvas, .createVideoEl, .loadMeta (firstObjectUrl s),
    .setCanvasSize w h], [0], []⟩

/-- Result when decodeAudioData rejects (source line 179). -/
def resAudioFail (s : AppState) (u : UrlStore) (w h : Nat) (e : String) :
    RenderResult :=
  ⟨.failed e, catchFinal (initState s) e, u,
   [.createCanvas, .createVideoEl, .loadMeta (firstObjectUrl s),
    .setCanvasSize w h, .captureStream 30, .createAudioContext], [0], []⟩

/-- Result when a play() call rejects inside the clip loop: the events
up to the rejection were performed and the catch runs with the progress
reached so far. -/
def resLoopFail (s : AppState) (u : UrlStore) (w h : Nat)
    (aevs : List RenderEvent) (out : ClipLoopOut) (msg : String) :
    RenderResult :=
  ⟨.failed msg,
   catchFinal { initState s with progress := (0 :: out.progressVals).getLastD 0 }
     msg,
   u, renderTracePrefix s w h aevs ++ out.events, 0 :: out.progressVals,
   out.perClipElapsed⟩

/-- Result of a completed run: recorder stop, video pause, audio
context close (source lines 244 to 246), then the onstop handler builds
the blob, allocates its object URL, stores it as outputUrl, sets the
completion status and clears isRendering (source lines 205 to 210). -/
def resSuccess (s : AppState) (u : UrlStore) (w h : Nat)
    (aevs : List RenderEvent) (out : ClipLoopOut) : RenderResult :=
  ⟨.success,
   { initState s with
       progress := (0 :: out.progressVals).getLastD 0,
       status := "Render complete! Your video is ready for download.",
       isRendering := false, outputUrl := some (createObjectURL u).1 },
   (createObjectURL u).2,
   renderTracePrefix s w h aevs ++ out.events
     ++ [.recorderStop, .pauseVideo, .closeAudioContext,
         .makeBlobUrl (createObjectURL u).1],
   0 :: out.progressVals, out.perClipElapsed⟩

/-- handleRenderVideo (source lines 122 to 253) as a function of state,
URL store and environment.  The branches, in source order: the empty
list alert; the state resets; the isTypeSupported early return; the
metadata probe; the canvas context; the audio setup; stream combination
and recorder start; the clip loop; recorder stop and the onstop handler
that builds the blob URL.  Every throw lands in catchFinal.  none means
the environment supplied too few frames to finish a clip loop. -/
def handleRenderVideo (env : RenderEnv) (s : AppState) (u : UrlStore) :
    Option RenderResult :=
  if s.videos.isEmpty then some (resAlert s u)
  else if env.mimeSupported = false then some (resUnsupported s u)
  else
    match env.metadata with
    | none => some (resMetaFail s u)
    | some (w, h) =>
      if env.ctxOk = false then some (resCtxFail s u w h)
      else
        match audioSetup s.audioFile env.audioDecodeError with
        | .error e => some (resAudioFail s u w h e)
        | .ok aevs =>
          match clipsLoop s.masterLoop (s.masterDuration * 1000)
              (totalDuration s * 1000) (s.videos.zip env.clips) 0 with
          | none => none
          | some out =>
            match out.err with
            | some msg => some (resLoopFail s u w h aevs out msg)
            | none => some (resSuccess s u w h aevs out)

/-- The object URLs assigned to the clip element, in trace order. -/
def srcEvents : List RenderEvent → List Nat
  | [] => []
  | .setClipSrc u :: rest => u :: srcEvents rest
  | _ :: rest => srcEvents rest

/-- Events produced inside the for loop over the clips. -/
def isClipEvent : RenderEvent → Bool
  | .setClipSrc _ => true
  | .playClip _ => true
  | .resetClipTime _ => true
  | .drawFrame _ => true
  | _ => false

/-- Is this event a clip position reset? -/
def isResetEvent : RenderEvent → Bool
  | .resetClipTime _ => true
  | _ => false

/-- Is this event the creation of a blob URL? -/
def isBlobEvent : RenderEvent → Bool
  | .makeBlobUrl _ => true
  | _ => false

/-- Number of clip-position resets in a trace. -/
def countResets (evs : List RenderEvent) : Nat :=
  evs.countP isResetEvent

/-- Number of blob URLs produced in a trace. -/
def countBlobs (evs : List RenderEvent) : Nat :=
  evs.countP isBlobEvent

/-- The performance.now() readings of a clip environment are
nondecreasing (performance.now is a monotone clock). -/
def framesChain (c : ClipEnv) : Prop :=
  List.Chain' (· ≤ ·) (c.startTime :: c.frames.map Frame.now)

instance (c : ClipEnv) : Decidable (framesChain c) := by
  unfold framesChain
  infer_instance

/-! Concrete inputs used by the counterexamples and witnesses below. -/

/-- The initial state of the App component (the useState defaults). -/
def baseState : AppState :=
  { videos := [], audioFile := none, isRendering := false, progress := 0,
    status := "Ready. Upload videos to begin.", outputUrl := none,
    musicPrompt := "Epic cinematic score", musicDescription := "",
    isGeneratingMusic := false, masterDuration := 10, masterLoop := true,
    outputFormat := .webm }

/-- A fresh URL store. -/
def store0 : UrlStore := { nextUrl := 0, revoked := [] }

/-- Two files of the same name selected in one upload event, both mapped
within the same Date.now() millisecond. -/
def upFiles : List (SelectedFile × Nat) :=
  [({ name := "a.mp4", size := 10 }, 5), ({ name := "a.mp4", size := 20 }, 5)]

/-- The state reached by uploading upFiles into the initial state. -/
def dupState : AppState := (handleVideoUpload upFiles baseState store0).1

/-- The URL store after uploading upFiles. -/
def dupStore : UrlStore := (handleVideoUpload upFiles baseState store0).2

/-- A single uploaded clip. -/
def cexVideo : VideoFile :=
  { id := "v.mp4-1", fileName := "v.mp4", fileSize := 7, objectUrl := 0 }

/-- State holding one clip with a master duration of 1 second. -/
def cexState : AppState :=
  { baseState with videos := [cexVideo], masterDuration := 1 }

/-- A fully successful render environment for cexState: the two frames
arrive 700 ms apart, so the loop leaves after accumulating 1400 ms. -/
def cexEnv : RenderEnv :=
  { mimeSupported := true, metadata := some (640, 360), ctxOk := true,
    audioDecodeError := none,
    clips := [{ playError := none, startTime := 0,
                frames := [{ now := 700, currentTime := 0, duration := 100 },
                           { now := 1400, currentTime := 1 / 2, duration := 100 }] }] }

/-- The clip-loop output of the cexEnv render run: the clip source is
set and played, two frames are drawn, the loop exits with 1400 ms
accumulated (the first reading at which 1000 ms was passed). -/
def cexOut : ClipLoopOut :=
  { events := [.setClipSrc 0, .playClip 0, .drawFrame 0, .drawFrame 0],
    progressVals := [70, 100], overall := 1400,
    perClipElapsed := [1400], err := none }

/-- The result of the successful cexEnv render run. -/
def cexRes : RenderResult :=
  { outcome := .success,
    state :=
      { cexState with
          isRendering := false, progress := 100,
          status := "Render complete! Your video is ready for download.",
          outputUrl := some 0 },
    urls := { nextUrl := 1, revoked := [] },
    trace := [.createCanvas, .createVideoEl, .loadMeta 0, .setCanvasSize 640 360,
      .captureStream 30, .createAudioContext, .silentOscillator 0,
      .combineStream 1 1, .createRecorder "video/webm" none, .recorderStart,
      .setClipSrc 0, .playClip 0, .drawFrame 0, .drawFrame 0,
      .recorderStop, .pauseVideo, .closeAudioContext, .makeBlobUrl 0],
    progressLog := [0, 70, 100],
    clipElapsed := [1400] }

/-- An environment whose metadata probe fails (tempVideo.onerror). -/
def failEnv : RenderEnv :=
  { mimeSupported := true, metadata := none, ctxOk := true,
    audioDecodeError := none, clips := [] }

/-- The result of the failing metadata render run. -/
def failRes : RenderResult :=
  { outcome := .failed "Failed to load video metadata.",
    state :=
      { cexState with
          isRendering := false, progress := 0,
          status := "Error during render: Failed to load video metadata.",
          outputUrl := none },
    urls := store0,
    trace := [.createCanvas, .createVideoEl, .loadMeta 0],
    progressLog := [0],
    clipElapsed := [] }

/-! Helper lemmas. -/

/-- Characterisation of allocVideos: ids are name-timestamp strings, the
object URLs are the consecutive fresh indices starting at the current
nextUrl, and nothing is revoked. -/
theorem allocVideos_spec (files : List (SelectedFile × Nat)) (u : UrlStore) :
    (allocVideos files u).1.map VideoFile.id
        = files.map (fun ft => mkVideoId ft.1.name ft.2)
    ∧ (allocVideos files u).1.map VideoFile.objectUrl
        = List.range' u.nextUrl files.length
    ∧ (allocVideos files u).1.map VideoFile.fileName
        = files.map (fun ft => ft.1.name)
    ∧ (allocVideos files u).1.length = files.length
    ∧ (allocVideos files u).2.nextUrl = u.nextUrl + files.length
    ∧ (allocVideos files u).2.revoked = u.revoked := by
  induction files generalizing u with
  | nil => simp [allocVideos]
  | cons ft rest ih =>
    obtain ⟨h1, h2, h3, h4, h5, h6⟩ := ih (createObjectURL u).2
    refine ⟨?_, ?_, ?_, ?_, ?_, ?_⟩ <;>
      (simp [allocVideos, createObjectURL, h1, h2, h3, h4, h5, h6,
        List.range'_succ] at *; try omega)

/-- C5 counterexample: handleVideoUpload does not give every new entry a
fresh id.  Uploading two files that share the name a.mp4 in the same
Date.now() millisecond produces two entries with the identical id
a.mp4-5, so the second id is not fresh. -/
theorem upload_fresh_id_cex :
    (handleVideoUpload upFiles baseState store0).1.videos.map VideoFile.id
        = ["a.mp4-5", "a.mp4-5"]
    ∧ ¬ ((handleVideoUpload upFiles baseState store0).1.videos.map
          VideoFile.id).Nodup := by
  decide

/-- C5 (amended): for every upload event, handleVideoUpload appends one
entry per selected file to the end of the videos list, in selection
order; each entry receives a fresh object URL (the consecutive unused
store indices) and the id file.name-Date.now(), which is not guaranteed
distinct; all previously uploaded entries are unchanged and in their
original order, and an empty selection leaves the state and store
unchanged. -/
theorem handleVideoUpload_spec (files : List (SelectedFile × Nat))
    (s : AppState) (u : UrlStore) :
    (files = [] → handleVideoUpload files s u = (s, u))
    ∧ (files ≠ [] →
        (handleVideoUpload files s u).1.videos.take s.videos.length = s.videos
        ∧ (handleVideoUpload files s u).1.videos.length
            = s.videos.length + files.length
        ∧ ((handleVideoUpload files s u).1.videos.drop s.videos.length).map
            VideoFile.id = files.map (fun ft => mkVideoId ft.1.name ft.2)
        ∧ ((handleVideoUpload files s u).1.videos.drop s.videos.length).map
            VideoFile.objectUrl = List.range' u.nextUrl files.length
        ∧ (((handleVideoUpload files s u).1.videos.drop s.videos.length).map
            VideoFile.objectUrl).Nodup
        ∧ (∀ url ∈ ((handleVideoUpload files s u).1.videos.drop
              s.videos.length).map VideoFile.objectUrl, u.nextUrl ≤ url)
        ∧ (handleVideoUpload files s u).2.nextUrl = u.nextUrl + files.length
        ∧ (handleVideoUpload files s u).2.revoked = u.revoked
        ∧ (handleVideoUpload files s u).1.status
            = toString files.length ++
              " video(s) added. Adjust master settings and render.") := by
  obtain ⟨h1, h2, h3, h4, h5, h6⟩ := allocVideos_spec files u
  constructor
  · intro hf
    subst hf
    simp [handleVideoUpload]
  · intro hf
    have hne : files.isEmpty = false := List.isEmpty_eq_false.mpr hf
    have hdrop : (handleVideoUpload files s u).1.videos.drop s.videos.length
        = (allocVideos files u).1 := by
      simp [handleVideoUpload, hne, List.drop_left]
    refine ⟨?_, ?_, ?_, ?_, ?_, ?_, ?_, ?_, ?_⟩
    · simp [handleVideoUpload, hne, List.take_left]
    · simp [handleVideoUpload, hne, h4]
    · rw [hdrop, h1]
    · rw [hdrop, h2]
    · rw [hdrop, h2]
      exact List.nodup_range' _ _
    · rw [hdrop, h2]
      intro url hurl
      obtain ⟨i, hi, rfl⟩ := List.mem_range'.mp hurl
      omega
    · simp [handleVideoUpload, hne, h5]
    · simp [handleVideoUpload, hne, h6]
    · simp [handleVideoUpload, hne]

/-- C5 witness: the amended statement applied to the concrete two-file
upload into the initial state. -/
theorem handleVideoUpload_spec_witness :
    (handleVideoUpload upFiles baseState store0).1.videos.take
        baseState.videos.length = baseState.videos :=
  (((handleVideoUpload_spec upFiles baseState store0).2) (by decide)).1

/-- C9 counterexample: in the reachable state holding two entries that
share the id a.mp4-5 (built by handleVideoUpload from two same-named
files in one millisecond), handleRemoveVideo of that id removes both
entries, not exactly one, and revokes only the first object URL (0),
not the URL of each removed entry. -/
theorem remove_dup_id_cex :
    dupState.videos.length = 2
    ∧ dupState.videos.map VideoFile.id = ["a.mp4-5", "a.mp4-5"]
    ∧ (handleRemoveVideo "a.mp4-5" dupState dupStore).1.videos = []
    ∧ (handleRemoveVideo "a.mp4-5" dupState dupStore).2.revoked = [0] := by
  decide

/-- C9 (amended): handleRemoveVideo(id) removes every entry whose id
equals the argument and revokes the object URL of the first such entry
only; when the ids in the list are pairwise distinct this removes
exactly the matching entry, revoking only its URL and leaving every
other entry unchanged in order; if no entry has that id, the videos
list is unchanged and no object URL is revoked. -/
theorem handleRemoveVideo_spec (idr : String) (s : AppState) (u : UrlStore)
    (hnd : (s.videos.map VideoFile.id).Nodup) :
    (∀ l1 v l2, s.videos = l1 ++ v :: l2 → v.id = idr →
      (handleRemoveVideo idr s u).1.videos = l1 ++ l2
      ∧ (handleRemoveVideo idr s u).2.revoked = u.revoked ++ [v.objectUrl])
    ∧ ((∀ v ∈ s.videos, v.id ≠ idr) →
      (handleRemoveVideo idr s u).1.videos = s.videos
      ∧ (handleRemoveVideo idr s u).2 = u) := by
  constructor
  · rintro l1 v l2 hsplit hid
    rw [hsplit] at hnd
    rw [List.map_append, List.map_cons, List.nodup_append] at hnd
    obtain ⟨-, hnd2, hdisj⟩ := hnd
    rw [List.nodup_cons] at hnd2
    have hl1 : ∀ x ∈ l1, x.id ≠ idr := by
      intro x hx heq
      exact (List.disjoint_left.mp hdisj (List.mem_map_of_mem VideoFile.id hx))
        (by simp [heq, hid])
    have hl2 : ∀ x ∈ l2, x.id ≠ idr := by
      intro x hx heq
      exact hnd2.1 (by
        rw [hid, ← heq]
        exact List.mem_map_of_mem VideoFile.id hx)
    have hf1 : l1.filter (fun w => w.id != idr) = l1 :=
      List.filter_eq_self.mpr (fun x hx => by simp [hl1 x hx])
    have hf2 : l2.filter (fun w => w.id != idr) = l2 :=
      List.filter_eq_self.mpr (fun x hx => by simp [hl2 x hx])
    have hn1 : l1.find? (fun w => w.id == idr) = none :=
      List.find?_eq_none.mpr (fun x hx => by simp [hl1 x hx])
    have hfind : (l1 ++ v :: l2).find? (fun w => w.id == idr) = some v := by
      rw [List.find?_append, hn1]
      simp [hid]
    have hfilter : (l1 ++ v :: l2).filter (fun w => w.id != idr) = l1 ++ l2 := by
      rw [List.filter_append, List.filter_cons_of_neg (by simp [hid]), hf1, hf2]
    constructor
    · simp [handleRemoveVideo, hsplit, hfilter]
    · simp [handleRemoveVideo, hsplit, hfind, revokeObjectURL]
  · intro hnone
    have hfind : s.videos.find? (fun w => w.id == idr) = none := by
      rw [List.find?_eq_none]
      intro x hx
      simp [hnone x hx]
    have hfilter : s.videos.filter (fun w => w.id != idr) = s.videos := by
      rw [List.filter_eq_self]
      intro x hx
      simp [hnone x hx]
    constructor
    · simp [handleRemoveVideo, hfilter]
    · simp [handleRemoveVideo, hfind]

/-- C9 witness: removing the only clip of cexState removes exactly that
entry and revokes exactly its object URL. -/
theorem handleRemoveVideo_spec_witness :
    (handleRemoveVideo "v.mp4-1" cexState store0).1.videos = [] ++ []
    ∧ (handleRemoveVideo "v.mp4-1" cexState store0).2.revoked
        = store0.revoked ++ [cexVideo.objectUrl] :=
  ((handleRemoveVideo_spec "v.mp4-1" cexState store0 (by decide)).1
    [] cexVideo [] (by decide) (by decide))

/-- C6: a blank (empty after trim) prompt or a nonpositive total
duration makes handleGenerateMusic alert and return with the state,
including musicDescription and isGeneratingMusic, unchanged and no AI
request issued; otherwise a request is issued, a failed request sets
musicDescription to the fixed failure message, and every completed run
ends with isGeneratingMusic false. -/
theorem handleGenerateMusic_spec (ai : Except String String) (s : AppState) :
    ((jsTrim s.musicPrompt = "" ∨ totalDuration s ≤ 0) →
      handleGenerateMusic ai s = ⟨s, true, false⟩)
    ∧ (¬(jsTrim s.musicPrompt = "" ∨ totalDuration s ≤ 0) →
      (handleGenerateMusic ai s).requested = true
      ∧ (handleGenerateMusic ai s).alerted = false
      ∧ (handleGenerateMusic ai s).state.isGeneratingMusic = false
      ∧ (∀ msg, ai = .error msg →
          (handleGenerateMusic ai s).state.musicDescription
            = musicFailureMessage)) := by
  constructor
  · intro hcond
    simp [handleGenerateMusic, hcond]
  · intro hcond
    cases ai with
    | ok text => simp [handleGenerateMusic, hcond]
    | error e => simp [handleGenerateMusic, hcond]

/-- C6 witness: in the initial state (no videos, so total duration 0),
a run alerts and changes nothing; in the one-clip state with the
default prompt, a failing AI request sets the fixed failure message and
clears isGeneratingMusic. -/
theorem handleGenerateMusic_spec_witness :
    handleGenerateMusic (Except.error "boom") baseState
        = ⟨baseState, true, false⟩
    ∧ (handleGenerateMusic (Except.error "boom") cexState).state.musicDescription
        = musicFailureMessage :=
  ⟨(handleGenerateMusic_spec (Except.error "boom") baseState).1
      (Or.inr (by norm_num [totalDuration, baseState])),
   ((handleGenerateMusic_spec (Except.error "boom") cexState).2
      (by
        rintro (ha | hb)
        · exact absurd ha (by decide)
        · norm_num [totalDuration, cexState, baseState] at hb)).2.2.2 "boom" rfl⟩

/-- C7: handleRenderVideo on an empty videos list only alerts and
returns, leaving the state (isRendering, progress, status, outputUrl)
and the URL store unchanged and performing no media call; moreover the
Render button is disabled exactly while a render is in progress or the
videos list is empty. -/
theorem render_empty_guard (env : RenderEnv) (s : AppState) (u : UrlStore)
    (h : s.videos = []) :
    handleRenderVideo env s u
      = some { outcome := .noVideosAlert, state := s, urls := u, trace := [],
               progressLog := [], clipElapsed := [] }
    ∧ ∀ s2 : AppState,
        renderButtonDisabled s2 = true ↔ (s2.isRendering = true ∨ s2.videos = []) := by
  constructor
  · simp [handleRenderVideo, h, resAlert]
  · intro s2
    simp [renderButtonDisabled, ← List.length_eq_zero]

/-- C7 witness: the guard applied to the initial (empty) state. -/
theorem render_empty_guard_witness :
    handleRenderVideo failEnv baseState store0
      = some { outcome := .noVideosAlert, state := baseState, urls := store0,
               trace := [], progressLog := [], clipElapsed := [] } :=
  (render_empty_guard failEnv baseState store0 rfl).1

/-- Exhaustive case analysis of a defined handleRenderVideo run: it is
one of the seven branch results, under the conditions that select that
branch. -/
theorem handleRenderVideo_cases (env : RenderEnv) (s : AppState)
    (u : UrlStore) (res : RenderResult)
    (h : handleRenderVideo env s u = some res) :
    (s.videos = [] ∧ res = resAlert s u)
    ∨ (s.videos ≠ [] ∧ env.mimeSupported = false ∧ res = resUnsupported s u)
    ∨ (s.videos ≠ [] ∧ env.mimeSupported = true ∧ env.metadata = none
        ∧ res = resMetaFail s u)
    ∨ (∃ w h2, s.videos ≠ [] ∧ env.mimeSupported = true
        ∧ env.metadata = some (w, h2) ∧ env.ctxOk = false
        ∧ res = resCtxFail s u w h2)
    ∨ (∃ w h2 e, s.videos ≠ [] ∧ env.mimeSupported = true
        ∧ env.metadata = some (w, h2) ∧ env.ctxOk = true
        ∧ audioSetup s.audioFile env.audioDecodeError = .error e
        ∧ res = resAudioFail s u w h2 e)
    ∨ (∃ w h2 aevs out msg, s.videos ≠ [] ∧ env.mimeSupported = true
        ∧ env.metadata = some (w, h2) ∧ env.ctxOk = true
        ∧ audioSetup s.audioFile env.audioDecodeError = .ok aevs
        ∧ clipsLoop s.masterLoop (s.masterDuration * 1000)
            (totalDuration s * 1000) (s.videos.zip env.clips) 0 = some out
        ∧ out.err = some msg ∧ res = resLoopFail s u w h2 aevs out msg)
    ∨ (∃ w h2 aevs out, s.videos ≠ [] ∧ env.mimeSupported = true
        ∧ env.metadata = some (w, h2) ∧ env.ctxOk = true
        ∧ audioSetup s.audioFile env.audioDecodeError = .ok aevs
        ∧ clipsLoop s.masterLoop (s.masterDuration * 1000)
            (totalDuration s * 1000) (s.videos.zip env.clips) 0 = some out
        ∧ out.err = none ∧ res = resSuccess s u w h2 aevs out) := by
  by_cases hv : s.videos.isEmpty
  · left
    refine ⟨List.isEmpty_iff.mp hv, ?_⟩
    simp [handleRenderVideo, hv] at h
    exact h.symm
  · have hv2 : s.videos ≠ [] := by
      intro hnil
      exact hv (List.isEmpty_iff.mpr hnil)
    cases hm : env.mimeSupported with
    | false =>
      right; left
      refine ⟨hv2, rfl, ?_⟩
      simp [handleRenderVideo, hv, hm] at h
      exact h.symm
    | true =>
      cases hmd : env.metadata with
      | none =>
        right; right; left
        refine ⟨hv2, rfl, rfl, ?_⟩
        simp [handleRenderVideo, hv, hm, hmd] at h
        exact h.symm
      | some wh =>
        obtain ⟨w, h2⟩ := wh
        cases hctx : env.ctxOk with
        | false =>
          right; right; right; left
          refine ⟨w, h2, hv2, rfl, rfl, rfl, ?_⟩
          simp [handleRenderVideo, hv, hm, hmd, hctx] at h
          exact h.symm
        | true =>
          cases ha : audioSetup s.audioFile env.audioDecodeError with
          | error e =>
            right; right; right; right; left
            refine ⟨w, h2, e, hv2, rfl, rfl, rfl, rfl, ?_⟩
            simp [handleRenderVideo, hv, hm, hmd, hctx, ha] at h
            exact h.symm
          | ok aevs =>
            cases hc : clipsLoop s.masterLoop (s.masterDuration * 1000)
                (totalDuration s * 1000) (s.videos.zip env.clips) 0 with
            | none =>
              exact absurd h
                (by simp [handleRenderVideo, hv, hm, hmd, hctx, ha, hc])
            | some out =>
              cases he : out.err with
              | some msg =>
                right; right; right; right; right; left
                refine ⟨w, h2, aevs, out, msg, hv2, rfl, rfl, rfl, rfl, rfl, he, ?_⟩
                simp [handleRenderVideo, hv, hm, hmd, hctx, ha, hc, he] at h
                exact h.symm
              | none =>
                right; right; right; right; right; right
                refine ⟨w, h2, aevs, out, hv2, rfl, rfl, rfl, rfl, rfl, he, ?_⟩
                simp [handleRenderVideo, hv, hm, hmd, hctx, ha, hc, he] at h
                exact h.symm

/-- The audio setup returns either the buffer-source hookup or the
zero-gain oscillator hookup. -/
theorem audioSetup_ok (a d : Option String) (aevs : List RenderEvent)
    (h : audioSetup a d = .ok aevs) :
    (a.isSome ∧ aevs = [RenderEvent.connectAudioBuffer])
    ∨ (a = none ∧ aevs = [RenderEvent.silentOscillator 0]) := by
  cases a with
  | some x =>
    cases d with
    | some e => simp [audioSetup] at h
    | none =>
      left
      simp [audioSetup] at h
      simp [h.symm]
  | none =>
    right
    simp [audioSetup] at h
    simp [h.symm]

/-- The frame loop only exits once elapsed has reached clipDur. -/
theorem frameLoop_elapsed_ge (ml : Bool) (cd tm : ℚ) (url : Nat)
    (frames : List Frame) :
    ∀ (lastT elapsed op : ℚ) (out : FrameLoopOut),
      frameLoop ml cd tm url frames lastT elapsed op = some out →
      cd ≤ out.elapsed := by
  induction frames with
  | nil =>
    intro lastT elapsed op out h
    by_cases hlt : elapsed < cd
    · simp [frameLoop, hlt] at h
    · simp [frameLoop, hlt] at h
      subst h
      exact le_of_not_lt hlt
  | cons f rest ih =>
    intro lastT elapsed op out h
    by_cases hlt : elapsed < cd
    · simp only [frameLoop, if_pos hlt] at h
      cases hrec : frameLoop ml cd tm url rest f.now (elapsed + (f.now - lastT))
          (op + (f.now - lastT)) with
      | none => rw [hrec] at h; simp at h
      | some o =>
        rw [hrec] at h
        simp only [Option.some.injEq] at h
        subst h
        exact ih f.now _ _ o hrec
    · simp [frameLoop, hlt] at h
      subst h
      exact le_of_not_lt hlt

/-- Every event of the frame loop is a draw of the playing clip or,
only under masterLoop, a reset of its position to 0. -/
theorem frameLoop_events (ml : Bool) (cd tm : ℚ) (url : Nat)
    (frames : List Frame) :
    ∀ (lastT elapsed op : ℚ) (out : FrameLoopOut),
      frameLoop ml cd tm url frames lastT elapsed op = some out →
      ∀ e ∈ out.events, e = RenderEvent.drawFrame url
        ∨ (ml = true ∧ e = RenderEvent.resetClipTime url) := by
  induction frames with
  | nil =>
    intro lastT elapsed op out h e he
    by_cases hlt : elapsed < cd
    · simp [frameLoop, hlt] at h
    · simp [frameLoop, hlt] at h
      subst h
      simp at he
  | cons f rest ih =>
    intro lastT elapsed op out h e he
    by_cases hlt : elapsed < cd
    · simp only [frameLoop, if_pos hlt] at h
      cases hrec : frameLoop ml cd tm url rest f.now (elapsed + (f.now - lastT))
          (op + (f.now - lastT)) with
      | none => rw [hrec] at h; simp at h
      | some o =>
        rw [hrec] at h
        simp only [Option.some.injEq] at h
        subst h
        simp only [List.append_assoc, List.mem_append] at he
        rcases he with hin | hin | hrest
        · by_cases hcond : (ml = true) ∧ (f.duration - 1 / 10 ≤ f.currentTime)
          · rw [if_pos hcond] at hin
            simp at hin
            exact Or.inr ⟨hcond.1, hin⟩
          · rw [if_neg hcond] at hin
            simp at hin
        · simp at hin
          exact Or.inl hin
        · exact ih f.now _ _ o hrec e hrest
    · simp [frameLoop, hlt] at h
      subst h
      simp at he

/-- Every progress value stored by the frame loop lies in [0, 100],
provided the clock readings are nondecreasing. -/
theorem frameLoop_bounds (ml : Bool) (cd tm : ℚ) (url : Nat)
    (frames : List Frame) :
    ∀ (lastT elapsed op : ℚ) (out : FrameLoopOut),
      frameLoop ml cd tm url frames lastT elapsed op = some out →
      List.Chain' (· ≤ ·) (lastT :: frames.map Frame.now) →
      0 ≤ elapsed → 0 ≤ op → (0 < cd → 0 < tm) →
      0 ≤ out.overall ∧ ∀ p ∈ out.progressVals, 0 ≤ p ∧ p ≤ 100 := by
  induction frames with
  | nil =>
    intro lastT elapsed op out h _ _ hop _
    by_cases hlt : elapsed < cd
    · simp [frameLoop, hlt] at h
    · simp [frameLoop, hlt] at h
      subst h
      exact ⟨hop, by simp⟩
  | cons f rest ih =>
    intro lastT elapsed op out h hch he hop hcd
    by_cases hlt : elapsed < cd
    · simp only [frameLoop, if_pos hlt] at h
      simp only [List.map_cons] at hch
      have hstep := List.chain'_cons.mp hch
      have hd : 0 ≤ f.now - lastT := by linarith [hstep.1]
      cases hrec : frameLoop ml cd tm url rest f.now (elapsed + (f.now - lastT))
          (op + (f.now - lastT)) with
      | none => rw [hrec] at h; simp at h
      | some o =>
        rw [hrec] at h
        simp only [Option.some.injEq] at h
        subst h
        obtain ⟨ho, hp⟩ := ih f.now _ _ o hrec hstep.2 (by linarith) (by linarith) hcd
        refine ⟨ho, ?_⟩
        intro p hpmem
        simp only [List.mem_cons] at hpmem
        rcases hpmem with rfl | hmem
        · have htm : 0 < tm := hcd (lt_of_le_of_lt he hlt)
          constructor
          · exact le_min (by norm_num)
              (mul_nonneg (div_nonneg (by linarith) htm.le) (by norm_num))
          · exact min_le_left _ _
        · exact hp p hmem
    · simp [frameLoop, hlt] at h
      subst h
      exact ⟨hop, by simp⟩

/-- srcEvents distributes over append. -/
theorem srcEvents_append (l1 l2 : List RenderEvent) :
    srcEvents (l1 ++ l2) = srcEvents l1 ++ srcEvents l2 := by
  induction l1 with
  | nil => simp [srcEvents]
  | cons e t ih => cases e <;> simp [srcEvents, ih]

/-- A list without setClipSrc events contributes no source
assignments. -/
theorem srcEvents_eq_nil (l : List RenderEvent)
    (h : ∀ u2 : Nat, RenderEvent.setClipSrc u2 ∉ l) : srcEvents l = [] := by
  induction l with
  | nil => simp [srcEvents]
  | cons e t ih =>
    have ht : ∀ u2 : Nat, RenderEvent.setClipSrc u2 ∉ t := by
      intro u2 hmem
      exact h u2 (List.mem_cons_of_mem e hmem)
    cases e with
    | setClipSrc u2 => exact absurd (List.mem_cons_self _ t) (h u2)
    | _ => simp [srcEvents, ih ht]

/-- Clip events are not blob creations. -/
theorem isClipEvent_not_blob (e : RenderEvent) (h : isClipEvent e = true) :
    isBlobEvent e = false := by
  cases e <;> first | rfl | exact Bool.noConfusion h

/-- Every event of the clip loop is a clip event (a source assignment,
a play, a draw or a position reset). -/
theorem clipsLoop_events (ml : Bool) (cd tm : ℚ)
    (pairs : List (VideoFile × ClipEnv)) :
    ∀ (op : ℚ) (out : ClipLoopOut),
      clipsLoop ml cd tm pairs op = some out →
      ∀ e ∈ out.events, isClipEvent e = true := by
  induction pairs with
  | nil =>
    intro op out h e he
    simp [clipsLoop] at h
    subst h
    simp at he
  | cons vc rest ih =>
    intro op out h e he
    obtain ⟨v, c⟩ := vc
    simp only [clipsLoop] at h
    split at h
    · rename_i msg hp
      simp only [Option.some.injEq] at h
      subst h
      simp only [List.mem_cons, List.not_mem_nil, or_false] at he
      rcases he with rfl | rfl <;> simp [isClipEvent]
    · rename_i hp
      split at h
      · simp at h
      · rename_i fo hf
        split at h
        · simp at h
        · rename_i o hc
          simp only [Option.some.injEq] at h
          subst h
          simp only [List.cons_append, List.nil_append, List.mem_cons,
            List.mem_append] at he
          rcases he with rfl | rfl | hfo | ho
          · simp [isClipEvent]
          · simp [isClipEvent]
          · rcases frameLoop_events ml cd tm v.objectUrl c.frames _ _ _ fo hf
                e hfo with rfl | ⟨-, rfl⟩ <;> simp [isClipEvent]
          · exact ih fo.overall o hc e ho

/-- Without masterLoop the clip loop never resets a clip position. -/
theorem clipsLoop_no_resets (cd tm : ℚ) (pairs : List (VideoFile × ClipEnv)) :
    ∀ (op : ℚ) (out : ClipLoopOut),
      clipsLoop false cd tm pairs op = some out →
      ∀ (e : RenderEvent), e ∈ out.events →
        ∀ u2 : Nat, e ≠ RenderEvent.resetClipTime u2 := by
  induction pairs with
  | nil =>
    intro op out h e he
    simp [clipsLoop] at h
    subst h
    simp at he
  | cons vc rest ih =>
    intro op out h e he u2
    obtain ⟨v, c⟩ := vc
    simp only [clipsLoop] at h
    split at h
    · rename_i msg hp
      simp only [Option.some.injEq] at h
      subst h
      simp only [List.mem_cons, List.not_mem_nil, or_false] at he
      rcases he with rfl | rfl <;> simp
    · rename_i hp
      split at h
      · simp at h
      · rename_i fo hf
        split at h
        · simp at h
        · rename_i o hc
          simp only [Option.some.injEq] at h
          subst h
          simp only [List.cons_append, List.nil_append, List.mem_cons,
            List.mem_append] at he
          rcases he with rfl | rfl | hfo | ho
          · simp
          · simp
          · rcases frameLoop_events false cd tm v.objectUrl c.frames _ _ _ fo hf
                e hfo with rfl | ⟨hml, -⟩
            · simp
            · exact absurd hml (by simp)
          · exact ih fo.overall o hc e ho u2

/-- A clip loop that completed without a play rejection visits the
clips in list order, one finished frame loop per clip, each ending
with at least clipDur of accumulated time. -/
theorem clipsLoop_success (ml : Bool) (cd tm : ℚ)
    (pairs : List (VideoFile × ClipEnv)) :
    ∀ (op : ℚ) (out : ClipLoopOut),
      clipsLoop ml cd tm pairs op = some out → out.err = none →
      srcEvents out.events = pairs.map (fun pc => pc.1.objectUrl)
      ∧ out.perClipElapsed.length = pairs.length
      ∧ (∀ e2 ∈ out.perClipElapsed, cd ≤ e2) := by
  induction pairs with
  | nil =>
    intro op out h _
    simp [clipsLoop] at h
    subst h
    simp [srcEvents]
  | cons vc rest ih =>
    intro op out h herr
    obtain ⟨v, c⟩ := vc
    simp only [clipsLoop] at h
    split at h
    · rename_i msg hp
      simp only [Option.some.injEq] at h
      subst h
      simp at herr
    · rename_i hp
      split at h
      · simp at h
      · rename_i fo hf
        split at h
        · simp at h
        · rename_i o hc
          simp only [Option.some.injEq] at h
          subst h
          obtain ⟨hsrc, hlen, hel⟩ := ih fo.overall o hc herr
          have hfonil : srcEvents fo.events = [] :=
            srcEvents_eq_nil fo.events (by
              intro u2 hmem
              rcases frameLoop_events ml cd tm v.objectUrl c.frames _ _ _ fo hf
                  _ hmem with heq | ⟨-, heq⟩ <;> exact absurd heq (by simp))
          refine ⟨?_, ?_, ?_⟩
          · simp only [List.cons_append, List.nil_append]
            rw [srcEvents, srcEvents, srcEvents_append, hfonil, hsrc] <;> simp
          · simp [hlen]
          · intro e2 he2
            simp only [List.mem_cons] at he2
            rcases he2 with rfl | hm2
            · exact frameLoop_elapsed_ge ml cd tm v.objectUrl c.frames _ _ _ fo hf
            · exact hel e2 hm2

/-- Every progress value stored by the clip loop lies in [0, 100],
provided all clock readings are nondecreasing. -/
theorem clipsLoop_bounds (ml : Bool) (cd tm : ℚ)
    (pairs : List (VideoFile × ClipEnv)) :
    ∀ (op : ℚ) (out : ClipLoopOut),
      clipsLoop ml cd tm pairs op = some out →
      (∀ pc ∈ pairs, framesChain pc.2) → 0 ≤ op → (0 < cd → 0 < tm) →
      0 ≤ out.overall ∧ ∀ p ∈ out.progressVals, 0 ≤ p ∧ p ≤ 100 := by
  induction pairs with
  | nil =>
    intro op out h _ hop _
    simp [clipsLoop] at h
    subst h
    exact ⟨hop, by simp⟩
  | cons vc rest ih =>
    intro op out h hch hop hcd
    obtain ⟨v, c⟩ := vc
    simp only [clipsLoop] at h
    split at h
    · rename_i msg hp
      simp only [Option.some.injEq] at h
      subst h
      exact ⟨hop, by simp⟩
    · rename_i hp
      split at h
      · simp at h
      · rename_i fo hf
        split at h
        · simp at h
        · rename_i o hc
          simp only [Option.some.injEq] at h
          subst h
          have hchain : List.Chain' (· ≤ ·) (c.startTime :: c.frames.map Frame.now) :=
            hch (v, c) (List.mem_cons_self _ _)
          obtain ⟨hfo1, hfo2⟩ := frameLoop_bounds ml cd tm v.objectUrl c.frames
            _ _ _ fo hf hchain le_rfl hop hcd
          obtain ⟨ho1, ho2⟩ := ih fo.overall o hc
            (fun pc hpc => hch pc (List.mem_cons_of_mem _ hpc)) hfo1 hcd
          refine ⟨ho1, ?_⟩
          intro p hpmem
          rcases List.mem_append.mp hpmem with hm | hm
          · exact hfo2 p hm
          · exact ho2 p hm

/-- The cexEnv clip loop evaluates to cexOut. -/
theorem cexClipsLoop_eq :
    clipsLoop cexState.masterLoop (cexState.masterDuration * 1000)
      (totalDuration cexState * 1000) (cexState.videos.zip cexEnv.clips) 0
      = some cexOut := by
  norm_num [clipsLoop, frameLoop, cexState, cexEnv, cexVideo, cexOut, baseState,
    totalDuration, min_def, List.zip, List.zipWith]

/-- The cexEnv render run evaluates to cexRes. -/
theorem cexRun_eq : handleRenderVideo cexEnv cexState store0 = some cexRes := by
  norm_num [handleRenderVideo, cexEnv, cexState, cexRes, baseState, store0,
    cexVideo, audioSetup, clipsLoop, frameLoop, totalDuration, resSuccess,
    initState, renderTracePrefix, firstObjectUrl, mimeTypeOf, bitrateOf,
    createObjectURL, min_def, List.getLastD_cons, List.zip, List.zipWith]

/-- The failEnv render run evaluates to failRes. -/
theorem failRun_eq : handleRenderVideo failEnv cexState store0 = some failRes := by
  have happ : "Error during render: " ++ "Failed to load video metadata."
      = "Error during render: Failed to load video metadata." := by decide
  norm_num [handleRenderVideo, failEnv, cexState, failRes, baseState, store0,
    cexVideo, resMetaFail, catchFinal, initState, firstObjectUrl, mimeTypeOf,
    happ]

/-- C2: whenever a run of handleRenderVideo ends in the catch handler
(any modelled step of the try block threw), the whole render is
aborted: the status is the error banner prefixed with Error during
render:, isRendering is cleared, and no output URL was produced, the
field keeping the null it was reset to at the start; no other recovery
path exists. -/
theorem render_catch_spec (env : RenderEnv) (s : AppState) (u : UrlStore)
    (res : RenderResult) (msg : String)
    (h : handleRenderVideo env s u = some res)
    (ho : res.outcome = RenderOutcome.failed msg) :
    res.state.status = "Error during render: " ++ msg
    ∧ res.state.isRendering = false
    ∧ res.state.outputUrl = none := by
  rcases handleRenderVideo_cases env s u res h with
      ⟨-, rfl⟩ | ⟨-, -, rfl⟩ | ⟨-, -, -, rfl⟩ | ⟨w, h2, -, -, -, -, rfl⟩
    | ⟨w, h2, e, -, -, -, -, -, rfl⟩
    | ⟨w, h2, aevs, out, m, -, -, -, -, -, -, -, rfl⟩
    | ⟨w, h2, aevs, out, -, -, -, -, -, -, -, rfl⟩
  · simp [resAlert] at ho
  · simp [resUnsupported] at ho
  · simp only [resMetaFail] at ho
    injection ho with hmsg
    subst hmsg
    simp [resMetaFail, catchFinal, initState]
  · simp only [resCtxFail] at ho
    injection ho with hmsg
    subst hmsg
    simp [resCtxFail, catchFinal, initState]
  · simp only [resAudioFail] at ho
    injection ho with hmsg
    subst hmsg
    simp [resAudioFail, catchFinal, initState]
  · simp only [resLoopFail] at ho
    injection ho with hmsg
    subst hmsg
    simp [resLoopFail, catchFinal, initState]
  · simp [resSuccess] at ho

/-- C2 witness: the failing metadata probe run. -/
theorem render_catch_spec_witness :
    failRes.state.status = "Error during render: " ++
      "Failed to load video metadata."
    ∧ failRes.state.isRendering = false
    ∧ failRes.state.outputUrl = none :=
  render_catch_spec failEnv cexState store0 failRes
    "Failed to load video metadata." failRun_eq rfl

/-- C8: progress is reset to 0 when a render starts and every stored
progress value (the reset and every Math.min(100, ...) update) lies in
[0, 100], provided the performance.now readings are nondecreasing; the
final stored progress also lies in [0, 100]. -/
theorem render_progress_bounds (env : RenderEnv) (s : AppState)
    (u : UrlStore) (res : RenderResult)
    (hchain : ∀ c ∈ env.clips, framesChain c)
    (h : handleRenderVideo env s u = some res) :
    (∀ p ∈ res.progressLog, 0 ≤ p ∧ p ≤ 100)
    ∧ (res.outcome ≠ RenderOutcome.noVideosAlert →
        res.progressLog.head? = some 0)
    ∧ (res.outcome ≠ RenderOutcome.noVideosAlert →
        0 ≤ res.state.progress ∧ res.state.progress ≤ 100) := by
  have hbound : ∀ out : ClipLoopOut, s.videos ≠ [] →
      clipsLoop s.masterLoop (s.masterDuration * 1000) (totalDuration s * 1000)
        (s.videos.zip env.clips) 0 = some out →
      ∀ p ∈ (0 : ℚ) :: out.progressVals, 0 ≤ p ∧ p ≤ 100 := by
    intro out hv hc p hp
    have hcd : 0 < s.masterDuration * 1000 → 0 < totalDuration s * 1000 := by
      intro hmd
      have hmd2 : 0 < s.masterDuration := by nlinarith
      have hlen : 0 < (s.videos.length : ℚ) := by
        have hl : 0 < s.videos.length := List.length_pos.mpr hv
        exact_mod_cast hl
      have hpos : 0 < totalDuration s := mul_pos hlen hmd2
      nlinarith
    obtain ⟨-, hall⟩ := clipsLoop_bounds s.masterLoop _ _ _ 0 out hc
      (fun pc hpc => hchain pc.2 (List.of_mem_zip hpc).2) le_rfl hcd
    rcases List.mem_cons.mp hp with rfl | hmem
    · norm_num
    · exact hall p hmem
  have hlastmem : ∀ l : List ℚ, ((0 : ℚ) :: l).getLastD 0 ∈ (0 : ℚ) :: l := by
    intro l
    rw [List.getLastD_cons]
    exact List.getLastD_mem_cons _ _
  rcases handleRenderVideo_cases env s u res h with
      ⟨-, rfl⟩ | ⟨-, -, rfl⟩ | ⟨-, -, -, rfl⟩ | ⟨w, h2, -, -, -, -, rfl⟩
    | ⟨w, h2, e, -, -, -, -, -, rfl⟩
    | ⟨w, h2, aevs, out, m, hv, -, -, -, -, hc, -, rfl⟩
    | ⟨w, h2, aevs, out, hv, -, -, -, -, hc, -, rfl⟩
  · refine ⟨by simp [resAlert], fun hne => ?_, fun hne => ?_⟩ <;>
      (simp [resAlert] at hne)
  · refine ⟨?_, fun _ => by simp [resUnsupported], fun _ => ?_⟩
    · intro p hp
      simp [resUnsupported] at hp
      subst hp
      norm_num
    · constructor <;> simp [resUnsupported, initState]
  · refine ⟨?_, fun _ => by simp [resMetaFail], fun _ => ?_⟩
    · intro p hp
      simp [resMetaFail] at hp
      subst hp
      norm_num
    · constructor <;> simp [resMetaFail, catchFinal, initState]
  · refine ⟨?_, fun _ => by simp [resCtxFail], fun _ => ?_⟩
    · intro p hp
      simp [resCtxFail] at hp
      subst hp
      norm_num
    · constructor <;> simp [resCtxFail, catchFinal, initState]
  · refine ⟨?_, fun _ => by simp [resAudioFail], fun _ => ?_⟩
    · intro p hp
      simp [resAudioFail] at hp
      subst hp
      norm_num
    · constructor <;> simp [resAudioFail, catchFinal, initState]
  · refine ⟨?_, fun _ => by simp [resLoopFail], fun _ => ?_⟩
    · intro p hp
      exact hbound out hv hc p (by simpa [resLoopFail] using hp)
    · have hmem := hbound out hv hc _ (hlastmem out.progressVals)
      simpa [resLoopFail, catchFinal, initState] using hmem
  · refine ⟨?_, fun _ => by simp [resSuccess], fun _ => ?_⟩
    · intro p hp
      exact hbound out hv hc p (by simpa [resSuccess] using hp)
    · have hmem := hbound out hv hc _ (hlastmem out.progressVals)
      simpa [resSuccess, initState] using hmem

/-- C8 witness: the bounds applied to the successful concrete run, whose
clock readings 0, 700, 1400 are nondecreasing. -/
theorem render_progress_bounds_witness :
    (∀ p ∈ cexRes.progressLog, 0 ≤ p ∧ p ≤ 100)
    ∧ cexRes.progressLog.head? = some 0 := by
  have hch : ∀ c ∈ cexEnv.clips, framesChain c := by
    intro c hcm
    simp [cexEnv] at hcm
    subst hcm
    constructor <;> norm_num [List.chain'_cons]
  obtain ⟨h1, h2, -⟩ :=
    render_progress_bounds cexEnv cexState store0 cexRes hch cexRun_eq
  exact ⟨h1, h2 (by simp [cexRes])⟩
/-- countBlobs distributes over append. -/
theorem countBlobs_append (l1 l2 : List RenderEvent) :
    countBlobs (l1 ++ l2) = countBlobs l1 + countBlobs l2 := by
  unfold countBlobs
  exact List.countP_append _ _ _

/-- C1 counterexample: in the successful concrete run the single clip
is drawn for 1400 ms of accumulated wall time while masterDuration is
1 second, so frames are not drawn for exactly masterDuration seconds:
the loop only stops at the first frame at which the accumulated time
has reached the target. -/
theorem render_exact_duration_cex :
    handleRenderVideo cexEnv cexState store0 = some cexRes
    ∧ cexRes.outcome = RenderOutcome.success
    ∧ cexRes.clipElapsed = [1400]
    ∧ cexState.masterDuration * 1000 = 1000
    ∧ ¬ (∀ e2 ∈ cexRes.clipElapsed, e2 = cexState.masterDuration * 1000) := by
  refine ⟨cexRun_eq, rfl, rfl, by norm_num [cexState, baseState], ?_⟩
  intro hall
  have h14 := hall 1400 (by simp [cexRes])
  norm_num [cexState, baseState] at h14

/-- C1 (amended): a successful render processes the clips strictly in
list (upload) order, draws frames of each clip until the accumulated
frame time first reaches masterDuration seconds (hence for at least,
not exactly, masterDuration seconds of wall time), resets the clip
position to 0 only when masterLoop is set (and does reset it on a
frame at which the clip is within 0.1 s of its end), and produces
exactly one output blob whose fresh object URL becomes the single
outputUrl. -/
theorem render_sequential_spec (env : RenderEnv) (s : AppState)
    (u : UrlStore) (res : RenderResult)
    (hlen : env.clips.length = s.videos.length)
    (h : handleRenderVideo env s u = some res)
    (hs : res.outcome = RenderOutcome.success) :
    srcEvents res.trace = s.videos.map VideoFile.objectUrl
    ∧ res.clipElapsed.length = s.videos.length
    ∧ (∀ e2 ∈ res.clipElapsed, s.masterDuration * 1000 ≤ e2)
    ∧ (s.masterLoop = false →
        ∀ e ∈ res.trace, ∀ u2 : Nat, e ≠ RenderEvent.resetClipTime u2)
    ∧ countBlobs res.trace = 1
    ∧ res.state.outputUrl = some u.nextUrl
    ∧ RenderEvent.makeBlobUrl u.nextUrl ∈ res.trace
    ∧ (∀ (url2 : Nat) (lastT : ℚ) (f : Frame) (rest : List Frame)
        (out2 : FrameLoopOut),
        s.masterLoop = true → 0 < s.masterDuration →
        f.duration - 1 / 10 ≤ f.currentTime →
        frameLoop s.masterLoop (s.masterDuration * 1000)
          (totalDuration s * 1000) url2 (f :: rest) lastT 0 0 = some out2 →
        out2.events.head? = some (RenderEvent.resetClipTime url2)) := by
  rcases handleRenderVideo_cases env s u res h with
      ⟨-, rfl⟩ | ⟨-, -, rfl⟩ | ⟨-, -, -, rfl⟩ | ⟨w, h2, -, -, -, -, rfl⟩
    | ⟨w, h2, e, -, -, -, -, -, rfl⟩
    | ⟨w, h2, aevs, out, m, -, -, -, -, -, -, -, rfl⟩
    | ⟨w, h2, aevs, out, hv, -, -, -, ha, hc, he, rfl⟩
  · simp [resAlert] at hs
  · simp [resUnsupported] at hs
  · simp [resMetaFail] at hs
  · simp [resCtxFail] at hs
  · simp [resAudioFail] at hs
  · simp [resLoopFail] at hs
  obtain ⟨hsrc, hlen2, hel⟩ := clipsLoop_success s.masterLoop _ _ _ 0 out hc he
  have hclip := clipsLoop_events s.masterLoop _ _ _ 0 out hc
  have haevs := audioSetup_ok _ _ aevs ha
  have hsrcaevs : srcEvents aevs = [] := by
    rcases haevs with ⟨-, rfl⟩ | ⟨-, rfl⟩ <;> rfl
  have hzip : (s.videos.zip env.clips).map (fun pc => pc.1.objectUrl)
      = s.videos.map VideoFile.objectUrl := by
    have h1 : List.map Prod.fst (s.videos.zip env.clips) = s.videos :=
      List.map_fst_zip _ _ (le_of_eq hlen.symm)
    calc (s.videos.zip env.clips).map (fun pc => pc.1.objectUrl)
        = ((s.videos.zip env.clips).map Prod.fst).map VideoFile.objectUrl := by
          rw [List.map_map]
          rfl
      _ = s.videos.map VideoFile.objectUrl := by rw [h1]
  have hmemdec : ∀ e3 ∈ (resSuccess s u w h2 aevs out).trace,
      e3 ∈ ([RenderEvent.createCanvas, RenderEvent.createVideoEl,
          RenderEvent.loadMeta (firstObjectUrl s),
          RenderEvent.setCanvasSize w h2, RenderEvent.captureStream 30,
          RenderEvent.createAudioContext] : List RenderEvent)
        ∨ e3 ∈ aevs
        ∨ e3 ∈ ([RenderEvent.combineStream 1 1,
            RenderEvent.createRecorder (mimeTypeOf s.outputFormat)
              (bitrateOf s.outputFormat), RenderEvent.recorderStart] :
            List RenderEvent)
        ∨ e3 ∈ out.events
        ∨ e3 ∈ ([RenderEvent.recorderStop, RenderEvent.pauseVideo,
            RenderEvent.closeAudioContext,
            RenderEvent.makeBlobUrl (createObjectURL u).1] :
            List RenderEvent) := by
    intro e3 hmem
    simp only [resSuccess, renderTracePrefix, List.append_assoc,
      List.mem_append] at hmem
    tauto
  have hsA : srcEvents [RenderEvent.createCanvas, RenderEvent.createVideoEl,
      RenderEvent.loadMeta (firstObjectUrl s),
      RenderEvent.setCanvasSize w h2, RenderEvent.captureStream 30,
      RenderEvent.createAudioContext] = [] := rfl
  have hsB : srcEvents [RenderEvent.combineStream 1 1,
      RenderEvent.createRecorder (mimeTypeOf s.outputFormat)
        (bitrateOf s.outputFormat), RenderEvent.recorderStart] = [] := rfl
  have hsC : srcEvents [RenderEvent.recorderStop, RenderEvent.pauseVideo,
      RenderEvent.closeAudioContext,
      RenderEvent.makeBlobUrl (createObjectURL u).1] = [] := rfl
  refine ⟨?_, ?_, ?_, ?_, ?_, ?_, ?_, ?_⟩
  · simp only [resSuccess, renderTracePrefix, List.append_assoc,
      srcEvents_append]
    rw [hsA, hsB, hsC, hsrcaevs, hsrc, hzip]
    simp
  · simp only [resSuccess]
    rw [hlen2, List.length_zip, hlen]
    simp
  · intro e2 he2
    simp only [resSuccess] at he2
    exact hel e2 he2
  · intro hml e3 hmem u2
    rcases hmemdec e3 hmem with h5 | h5 | h5 | h5 | h5
    · simp only [List.mem_cons, List.not_mem_nil, or_false] at h5
      rcases h5 with rfl | rfl | rfl | rfl | rfl | rfl <;> simp
    · rcases haevs with ⟨-, rfl⟩ | ⟨-, rfl⟩ <;>
        (simp only [List.mem_cons, List.not_mem_nil, or_false] at h5;
         subst h5; simp)
    · simp only [List.mem_cons, List.not_mem_nil, or_false] at h5
      rcases h5 with rfl | rfl | rfl <;> simp
    · rw [hml] at hc
      exact clipsLoop_no_resets _ _ _ _ out hc e3 h5 u2
    · simp only [List.mem_cons, List.not_mem_nil, or_false] at h5
      rcases h5 with rfl | rfl | rfl | rfl <;> simp
  · have hb0 : countBlobs aevs = 0 := by
      rcases haevs with ⟨-, rfl⟩ | ⟨-, rfl⟩ <;> rfl
    have hbo : countBlobs out.events = 0 := by
      unfold countBlobs
      rw [List.countP_eq_zero]
      intro a ha2
      simp [isClipEvent_not_blob a (hclip a ha2)]
    have hcA : countBlobs [RenderEvent.createCanvas, RenderEvent.createVideoEl,
        RenderEvent.loadMeta (firstObjectUrl s),
        RenderEvent.setCanvasSize w h2, RenderEvent.captureStream 30,
        RenderEvent.createAudioContext] = 0 := rfl
    have hcB : countBlobs [RenderEvent.combineStream 1 1,
        RenderEvent.createRecorder (mimeTypeOf s.outputFormat)
          (bitrateOf s.outputFormat), RenderEvent.recorderStart] = 0 := rfl
    have hcC : countBlobs [RenderEvent.recorderStop, RenderEvent.pauseVideo,
        RenderEvent.closeAudioContext,
        RenderEvent.makeBlobUrl (createObjectURL u).1] = 1 := rfl
    simp only [resSuccess, renderTracePrefix, List.append_assoc,
      countBlobs_append]
    rw [hb0, hbo, hcA, hcB, hcC]
  · simp [resSuccess, initState, createObjectURL]
  · simp [resSuccess, renderTracePrefix, createObjectURL]
  · intro url2 lastT f rest out2 hml hmd hnear hfl
    have hcd : (0 : ℚ) < s.masterDuration * 1000 := by nlinarith
    rw [hml] at hfl
    simp only [frameLoop, if_pos hcd] at hfl
    rw [if_pos ⟨by trivial, hnear⟩] at hfl
    split at hfl
    · simp at hfl
    · simp only [Option.some.injEq] at hfl
      subst hfl
      simp

/-- C1 witness: the amended statement applied to the successful
concrete run: the single clip of cexState was processed in order. -/
theorem render_sequential_spec_witness :
    srcEvents cexRes.trace = cexState.videos.map VideoFile.objectUrl :=
  (render_sequential_spec cexEnv cexState store0 cexRes rfl cexRun_eq rfl).1
/-- Clip events are not audio hookups. -/
theorem isClipEvent_not_audio (e : RenderEvent) (h : isClipEvent e = true) :
    e ≠ RenderEvent.connectAudioBuffer
    ∧ ∀ q : ℚ, e ≠ RenderEvent.silentOscillator q := by
  cases e <;> simp_all [isClipEvent]

/-- C3: a completed render performs the pipeline steps in source order:
canvas and off-screen video creation, canvas sizing from the first
clip metadata, 30 FPS canvas capture, audio-context creation and audio
hookup, combination into one stream of the canvas video track and the
audio track, recorder creation and start, the sequential per-clip draw
loop (only clip events), then recorder stop, video pause, audio
context close, and the blob URL of the collected chunks, which becomes
the outputUrl. -/
theorem render_pipeline_order (env : RenderEnv) (s : AppState)
    (u : UrlStore) (w h2 : Nat) (aevs : List RenderEvent) (out : ClipLoopOut)
    (hv : s.videos ≠ [])
    (hm : env.mimeSupported = true)
    (hmd : env.metadata = some (w, h2))
    (hctx : env.ctxOk = true)
    (ha : audioSetup s.audioFile env.audioDecodeError = Except.ok aevs)
    (hc : clipsLoop s.masterLoop (s.masterDuration * 1000)
        (totalDuration s * 1000) (s.videos.zip env.clips) 0 = some out)
    (he : out.err = none) :
    handleRenderVideo env s u = some (resSuccess s u w h2 aevs out)
    ∧ (resSuccess s u w h2 aevs out).trace
        = [RenderEvent.createCanvas, RenderEvent.createVideoEl,
           RenderEvent.loadMeta (firstObjectUrl s),
           RenderEvent.setCanvasSize w h2, RenderEvent.captureStream 30,
           RenderEvent.createAudioContext]
          ++ aevs
          ++ [RenderEvent.combineStream 1 1,
              RenderEvent.createRecorder (mimeTypeOf s.outputFormat)
                (bitrateOf s.outputFormat),
              RenderEvent.recorderStart]
          ++ out.events
          ++ [RenderEvent.recorderStop, RenderEvent.pauseVideo,
              RenderEvent.closeAudioContext,
              RenderEvent.makeBlobUrl (createObjectURL u).1]
    ∧ (∀ e ∈ out.events, isClipEvent e = true)
    ∧ (resSuccess s u w h2 aevs out).state.outputUrl
        = some (createObjectURL u).1 := by
  have hne : s.videos.isEmpty = false := List.isEmpty_eq_false.mpr hv
  refine ⟨?_, ?_, clipsLoop_events _ _ _ _ 0 out hc, ?_⟩
  · simp [handleRenderVideo, hne, hm, hmd, hctx, ha, hc, he]
  · simp [resSuccess, renderTracePrefix]
  · simp [resSuccess]

/-- C3 witness: the pipeline order on the successful concrete run. -/
theorem render_pipeline_order_witness :
    handleRenderVideo cexEnv cexState store0
      = some (resSuccess cexState store0 640 360
          [RenderEvent.silentOscillator 0] cexOut) :=
  (render_pipeline_order cexEnv cexState store0 640 360
    [RenderEvent.silentOscillator 0] cexOut (by decide) rfl rfl rfl rfl
    cexClipsLoop_eq rfl).1

/-- C4: a completed render always combines exactly one canvas video
track with exactly one audio track; the audio source is the decoded
uploaded audio buffer when an audio file is present, and a zero-gain
(silent) oscillator when none is, so the recorded stream always has
an audio channel. -/
theorem render_audio_track (env : RenderEnv) (s : AppState) (u : UrlStore)
    (res : RenderResult)
    (h : handleRenderVideo env s u = some res)
    (hs : res.outcome = RenderOutcome.success) :
    RenderEvent.combineStream 1 1 ∈ res.trace
    ∧ (s.audioFile.isSome = true →
        RenderEvent.connectAudioBuffer ∈ res.trace
        ∧ ∀ q : ℚ, RenderEvent.silentOscillator q ∉ res.trace)
    ∧ (s.audioFile = none →
        RenderEvent.silentOscillator 0 ∈ res.trace
        ∧ RenderEvent.connectAudioBuffer ∉ res.trace) := by
  rcases handleRenderVideo_cases env s u res h with
      ⟨-, rfl⟩ | ⟨-, -, rfl⟩ | ⟨-, -, -, rfl⟩ | ⟨w, h2, -, -, -, -, rfl⟩
    | ⟨w, h2, e, -, -, -, -, -, rfl⟩
    | ⟨w, h2, aevs, out, m, -, -, -, -, -, -, -, rfl⟩
    | ⟨w, h2, aevs, out, hv, -, -, -, ha, hc, he, rfl⟩
  · simp [resAlert] at hs
  · simp [resUnsupported] at hs
  · simp [resMetaFail] at hs
  · simp [resCtxFail] at hs
  · simp [resAudioFail] at hs
  · simp [resLoopFail] at hs
  have hclip := clipsLoop_events s.masterLoop _ _ _ 0 out hc
  have haevs := audioSetup_ok _ _ aevs ha
  refine ⟨?_, ?_, ?_⟩
  · simp [resSuccess, renderTracePrefix]
  · intro hsome
    have haevs2 : aevs = [RenderEvent.connectAudioBuffer] := by
      rcases haevs with ⟨-, rfl⟩ | ⟨hnone, -⟩
      · rfl
      · rw [hnone] at hsome
        simp at hsome
    subst haevs2
    constructor
    · simp [resSuccess, renderTracePrefix]
    · intro q hqmem
      simp [resSuccess, renderTracePrefix] at hqmem
      exact ((isClipEvent_not_audio _ (hclip _ hqmem)).2 q) rfl
  · intro hnone
    have haevs2 : aevs = [RenderEvent.silentOscillator 0] := by
      rcases haevs with ⟨hsome, -⟩ | ⟨-, rfl⟩
      · rw [hnone] at hsome
        simp at hsome
      · rfl
    subst haevs2
    constructor
    · simp [resSuccess, renderTracePrefix]
    · intro hqmem
      simp [resSuccess, renderTracePrefix] at hqmem
      exact ((isClipEvent_not_audio _ (hclip _ hqmem)).1) rfl

/-- C4 witness: the successful concrete run has no uploaded audio file
and carries the zero-gain oscillator track next to the canvas track. -/
theorem render_audio_track_witness :
    RenderEvent.combineStream 1 1 ∈ cexRes.trace
    ∧ RenderEvent.silentOscillator 0 ∈ cexRes.trace :=
  ⟨(render_audio_track cexEnv cexState store0 cexRes cexRun_eq rfl).1,
   ((render_audio_track cexEnv cexState store0 cexRes cexRun_eq rfl).2.2
      rfl).1⟩
end VideoJoiner
